import Mathlib

/-!
Shallow embedding of the reactive data-access layer and view controller of
the Zerro-levelup listing application (`src/services/data.service.ts` and
`src/app.component.ts`).

The remote store is modelled as an association list from store-generated
keys to records.  Each mutation of `DataService` becomes a pure function
from the ambient state it reads (the current signed-in user, the targeted
collection, the key the store would generate, the current timestamp) to an
`Except` value: `Except.error` models a thrown `Error`, `Except.ok` the
resolved promise together with the collection state after the write.
JavaScript strings are Lean `String`s; `toLowerCase` is modelled on the
ASCII range, which covers every string these claims touch; millisecond
timestamps obtained from `new Date(s).getTime()` are modelled by an
arbitrary total function `String → Int`.
-/

/-- Roles of `User.role` in `data.service.ts`: `'admin' | 'publisher' | 'user'`. -/
inductive Role where
  | admin : Role
  | publisher : Role
  | user : Role
deriving DecidableEq, Repr

/-- The `User` interface.  The optional `canEdit?: boolean` field becomes
`Option Bool` (`none` models the field being absent/undefined). -/
structure User where
  id : String
  email : String
  name : String
  role : Role
  canEdit : Option Bool
deriving DecidableEq, Repr

/-- `DataService.canEdit`:
`if (!user) return false; if (user.role === 'admin') return true;
return user.canEdit !== false;` -/
def canEditOf : Option User → Bool
  | none => false
  | some u => if u.role = Role.admin then true else u.canEdit != some false

/-- `DataService.isAdmin`: `this.currentUser()?.role === 'admin'`
(optional chaining yields `false` when no user is signed in). -/
def isAdminOf : Option User → Bool
  | none => false
  | some u => u.role == Role.admin

/-- `DataService.isPublisher`:
`this.currentUser()?.role === 'publisher' || this.currentUser()?.role === 'admin'`. -/
def isPublisherOf : Option User → Bool
  | none => false
  | some u => u.role == Role.publisher || u.role == Role.admin

/-- For any non-admin user (publisher or plain user alike) the code returns
`user.canEdit !== false`, which equals the flag with default `true`. -/
theorem canEditOf_nonadmin (u : User) (h : ¬ u.role = Role.admin) :
    canEditOf (some u) = u.canEdit.getD true := by
  simp only [canEditOf, if_neg h]
  cases u.canEdit with
  | none => rfl
  | some b => cases b <;> rfl

/-- A post record as stored under `posts/{id}`: the `Post` interface minus
the `id`, which is the store key. -/
structure PostRec where
  title : String
  description : String
  url : String
  imageUrl : String
  categoryId : String
  publisherId : String
  publisherName : String
  date : String
  views : Int
deriving DecidableEq, Repr

/-- The `Post` interface (record plus its store key as `id`). -/
structure Post where
  id : String
  title : String
  description : String
  url : String
  imageUrl : String
  categoryId : String
  publisherId : String
  publisherName : String
  date : String
  views : Int
deriving DecidableEq, Repr

/-- `{ ...data[key], id: key }` applied to a post record. -/
def PostRec.withId (k : String) (r : PostRec) : Post :=
  { id := k, title := r.title, description := r.description, url := r.url,
    imageUrl := r.imageUrl, categoryId := r.categoryId,
    publisherId := r.publisherId, publisherName := r.publisherName,
    date := r.date, views := r.views }

/-- Argument of `addPost`: `Omit<Post, 'id' | 'views' | 'date' | 'publisherId' | 'publisherName'>`. -/
structure PostData where
  title : String
  description : String
  url : String
  imageUrl : String
  categoryId : String
deriving DecidableEq, Repr

/-- `Partial<Post>` restricted to the stored fields: every field optional. -/
structure PostPatch where
  title : Option String := none
  description : Option String := none
  url : Option String := none
  imageUrl : Option String := none
  categoryId : Option String := none
  publisherId : Option String := none
  publisherName : Option String := none
  date : Option String := none
  views : Option Int := none
deriving DecidableEq, Repr

/-- The merge semantics of the store's `update(ref, fields)`: mentioned
fields overwrite, unmentioned fields are untouched. -/
def applyPatch (p : PostRec) (q : PostPatch) : PostRec :=
  { title := q.title.getD p.title, description := q.description.getD p.description,
    url := q.url.getD p.url, imageUrl := q.imageUrl.getD p.imageUrl,
    categoryId := q.categoryId.getD p.categoryId,
    publisherId := q.publisherId.getD p.publisherId,
    publisherName := q.publisherName.getD p.publisherName,
    date := q.date.getD p.date, views := q.views.getD p.views }

/-- A collection held by the remote store: store-generated keys paired with
records, in store iteration order. -/
abbrev Store (α : Type) := List (String × α)

/-- `DataService.addPost`.  `cu` is `this.currentUser()` at call time,
`newKey` the key `push(ref(db, 'posts'))` generates, `now` the
`new Date().toISOString()` stamp.
`if (!user) return;` resolves with no write; `if (!this.canEdit()) throw`
rejects; otherwise the stamped record is written at the new key. -/
def addPost (cu : Option User) (store : Store PostRec) (newKey : String)
    (pd : PostData) (now : String) : Except String (Store PostRec) :=
  match cu with
  | none => Except.ok store
  | some user =>
    if canEditOf (some user) = false then
      Except.error "You do not have permission to post."
    else
      Except.ok (store ++ [(newKey,
        { title := pd.title, description := pd.description, url := pd.url,
          imageUrl := pd.imageUrl, categoryId := pd.categoryId,
          views := 0, date := now,
          publisherId := user.id, publisherName := user.name })])

/-- `DataService.updatePost`: `if (!user) return;` then the same permission
gate, then a partial merge at `posts/{id}`. -/
def updatePost (cu : Option User) (store : Store PostRec) (id : String)
    (patch : PostPatch) : Except String (Store PostRec) :=
  match cu with
  | none => Except.ok store
  | some user =>
    if canEditOf (some user) = false then
      Except.error "Permission denied: You cannot edit posts."
    else
      Except.ok (store.map fun kv => if kv.1 = id then (kv.1, applyPatch kv.2 patch) else kv)

/-- The store's `remove` at path `posts/{id}`: drop the entry at that key. -/
def removeKey (store : Store PostRec) (id : String) : Store PostRec :=
  store.filter fun kv => kv.1 != id

/-- `DataService.deletePost`: unconditional `remove` — the current user is
in scope at call time but never consulted. -/
def deletePost (cu : Option User) (store : Store PostRec) (id : String) :
    Except String (Store PostRec) :=
  Except.ok (removeKey store id)

/-- Profile record written under `users/{uid}` by `register`
(`Omit<User, 'id'>`). -/
structure ProfileRecord where
  name : String
  email : String
  role : Role
  canEdit : Option Bool
deriving DecidableEq, Repr

/-- `DataService.register` after the credential has been created: the
profile document written at `users/{uid}`.  `pass` only feeds the external
credential provider.  One hardcoded email is forced to admin. -/
def register (name email pass : String) (requestedRole : Role) : ProfileRecord :=
  let finalRole : Role :=
    if email = "moinulbd.sk@gmail.com" then Role.admin else requestedRole
  { name := name, email := email, role := finalRole, canEdit := some true }

/-- `DataService.logout`: after `signOut` resolves, `currentUser.set(null)`
runs synchronously, so the local identity is cleared at once. -/
def logout (cu : Option User) : Option User := none

/-- ASCII model of JavaScript `String.prototype.toLowerCase` (every string
in these claims is ASCII). -/
def jsToLower (s : String) : String := String.mk (s.data.map Char.toLower)

/-- The character class of the regex `\s` in JavaScript. -/
def isJsSpace (c : Char) : Bool :=
  c = ' ' || c = '\t' || c = '\n' || c = '\r' || c = '\x0B' || c = '\x0C' ||
  c = '\u00A0' || c = '\u1680' || (0x2000 ≤ c.toNat && c.toNat ≤ 0x200A) ||
  c = '\u2028' || c = '\u2029' || c = '\u202F' || c = '\u205F' ||
  c = '\u3000' || c = '\uFEFF'

/-- Worker for `replace(/\s+/g, '-')`.  The flag records whether the
previous character was whitespace, i.e. whether we are inside a run whose
hyphen has already been emitted. -/
def replaceWsRunsAux : Bool → List Char → List Char
  | _, [] => []
  | inRun, c :: cs =>
    if isJsSpace c then
      if inRun then replaceWsRunsAux true cs
      else '-' :: replaceWsRunsAux true cs
    else
      c :: replaceWsRunsAux false cs

/-- `replace(/\s+/g, '-')`: each maximal nonempty run of whitespace becomes
one hyphen. -/
def replaceWsRuns (l : List Char) : List Char := replaceWsRunsAux false l

/-- The slug written by `addCategory`:
`name.toLowerCase().replace(/\s+/g, '-')`. -/
def slugOf (name : String) : String := String.mk (replaceWsRuns (jsToLower name).data)

/-- The slug transformation as the claim words it: the lowercase of the
given name with spaces replaced by hyphens (each space becomes a hyphen).
This is the spec-side definition, to be compared with `slugOf`. -/
def claimSlug (name : String) : String :=
  String.mk ((jsToLower name).data.map fun c => if c = ' ' then '-' else c)

/-- A category record as stored under `categories/{id}`. -/
structure CategoryRecord where
  name : String
  icon : String
  slug : String
deriving DecidableEq, Repr

/-- `DataService.addCategory`: write `{name, icon, slug}` at a
store-generated key and return that key (`newCatRef.key`). -/
def addCategory (store : Store CategoryRecord) (newKey : String)
    (name icon : String) : Store CategoryRecord × String :=
  (store ++ [(newKey, { name := name, icon := icon, slug := slugOf name })], newKey)

/-- Does `sub` match the leading characters of `s`? -/
def leadMatch : List Char → List Char → Bool
  | [], _ => true
  | _ :: _, [] => false
  | a :: as, b :: bs => a == b && leadMatch as bs

/-- Does `sub` occur contiguously somewhere in `s`? -/
def occursIn (sub : List Char) : List Char → Bool
  | [] => sub.isEmpty
  | c :: rest => leadMatch sub (c :: rest) || occursIn sub rest

/-- JavaScript `s.includes(sub)`: `sub` occurs contiguously in `s`. -/
def strIncludes (s sub : String) : Bool := occursIn sub.data s.data

/-- `AppComponent.filteredPosts`: lowercase the query, keep the posts whose
lowercased title or publisher name contains it and whose category matches
the selected one (or the selection is `'all'`). -/
def filteredPosts (searchQuery selectedCategory : String) (posts : List Post) :
    List Post :=
  let query := jsToLower searchQuery
  posts.filter fun post =>
    (strIncludes (jsToLower post.title) query ||
      strIncludes (jsToLower post.publisherName) query) &&
    (selectedCategory == "all" || post.categoryId == selectedCategory)

/-- One step of the sort `postsArray.sort((a, b) => time(b) - time(a))`:
insert a post into a list already sorted by `getTime` of `date`,
descending.  `getTime` models `s => new Date(s).getTime()`. -/
def insertByTimeDesc (getTime : String → Int) (p : Post) : List Post → List Post
  | [] => [p]
  | q :: qs =>
    if getTime q.date ≤ getTime p.date then p :: q :: qs
    else q :: insertByTimeDesc getTime p qs

/-- Sort posts by creation timestamp, descending (newest first). -/
def sortByTimeDesc (getTime : String → Int) (l : List Post) : List Post :=
  l.foldr (insertByTimeDesc getTime) []

/-- The snapshot callback of the `posts` subscription in `initData`:
`snapshot.val()` absent (`none`) yields the empty list; otherwise every
entry gets its key as `id` and the array is sorted by timestamp
descending before replacing the local collection. -/
def postsSnapshotHandler (getTime : String → Int)
    (val : Option (Store PostRec)) : List Post :=
  match val with
  | none => []
  | some data => sortByTimeDesc getTime (data.map fun kv => kv.2.withId kv.1)



/-- A plain-role user with the editable flag unset. -/
def plainUser : User :=
  { id := "u1", email := "plain@example.com", name := "Plain",
    role := Role.user, canEdit := none }

/-- An admin whose editable flag is explicitly false. -/
def adminFlagOff : User :=
  { id := "u2", email := "admin@example.com", name := "Admin",
    role := Role.admin, canEdit := some false }

/-- A publisher with the editable flag unset. -/
def pubFlagUnset : User :=
  { id := "u3", email := "pub@example.com", name := "Pub",
    role := Role.publisher, canEdit := none }

/-- A publisher restricted by the admin: editable flag explicitly false. -/
def pubRestricted : User :=
  { id := "u4", email := "pub2@example.com", name := "Pub2",
    role := Role.publisher, canEdit := some false }

/-- Sample payload for create-listing calls. -/
def samplePostData : PostData :=
  { title := "T", description := "D", url := "https://example.com",
    imageUrl := "img", categoryId := "c1" }

/-- The listing of the filtered-listings example. -/
def whatsappPost : Post :=
  { id := "p1", title := "WhatsApp Web",
    description := "Quickly send and receive messages.",
    url := "https://web.whatsapp.com", imageUrl := "img",
    categoryId := "c2", publisherId := "u2", publisherName := "Admin",
    date := "2024-01-01T00:00:00.000Z", views := 0 }

/-- Inserting into a list sorted by timestamp descending keeps it sorted. -/
theorem chain'_insertByTimeDesc (t : String → Int) (p : Post) :
    ∀ l : List Post, l.Chain' (fun a b => t b.date ≤ t a.date) →
      (insertByTimeDesc t p l).Chain' (fun a b => t b.date ≤ t a.date) := by
  intro l
  induction l with
  | nil =>
    intro _
    simp [insertByTimeDesc]
  | cons q qs ih =>
    intro h
    by_cases hq : t q.date ≤ t p.date
    · simp only [insertByTimeDesc, if_pos hq]
      exact List.chain'_cons.mpr ⟨hq, h⟩
    · simp only [insertByTimeDesc, if_neg hq]
      have hpq : t p.date ≤ t q.date := le_of_not_le hq
      have hins := ih (List.Chain'.tail h)
      cases qs with
      | nil =>
        simp only [insertByTimeDesc]
        exact List.chain'_pair.mpr hpq
      | cons r rs =>
        by_cases hr : t r.date ≤ t p.date
        · simp only [insertByTimeDesc, if_pos hr] at hins ⊢
          exact List.chain'_cons.mpr ⟨hpq, hins⟩
        · simp only [insertByTimeDesc, if_neg hr] at hins ⊢
          exact List.chain'_cons.mpr ⟨(List.chain'_cons.mp h).1, hins⟩

/-- The insertion sort used on every posts snapshot yields a list sorted by
timestamp descending. -/
theorem chain'_sortByTimeDesc (t : String → Int) (l : List Post) :
    (sortByTimeDesc t l).Chain' (fun a b => t b.date ≤ t a.date) := by
  induction l with
  | nil => simp [sortByTimeDesc]
  | cons p ps ih => exact chain'_insertByTimeDesc t p _ ih

/-- Claim C1 (corrected): for a signed-in identity whose role is `user`,
the derived can-edit boolean equals the identity's editable-flag with
default `true` when the flag is unset — the same rule as for a publisher —
rather than being constantly false. -/
theorem c1_user_canEdit_eq_flag (u : User) (h : u.role = Role.user) :
    canEditOf (some u) = u.canEdit.getD true :=
  canEditOf_nonadmin u (by rw [h]; decide)

/-- Witness for claim C1's theorem at a concrete role-`user` identity. -/
theorem c1_user_canEdit_eq_flag_witness : canEditOf (some plainUser) = true :=
  (c1_user_canEdit_eq_flag plainUser rfl).trans rfl

/-- Counterexample to claim C1 as stated: a signed-in identity with role
`user` and an unset editable-flag has can-edit `true`, not `false`. -/
theorem c1_counterexample :
    plainUser.role = Role.user ∧ plainUser.canEdit = none
    ∧ canEditOf (some plainUser) = true :=
  ⟨rfl, rfl, rfl⟩

/-- Claim C2 (corrected): create-listing rejects with the permission error
iff an identity is signed in and the derived can-edit boolean is false at
call time; when no identity is signed in it resolves silently with no
write instead of failing. -/
theorem c2_addPost_permission (cu : Option User) (store : Store PostRec)
    (newKey : String) (pd : PostData) (now : String) :
    (addPost cu store newKey pd now
        = Except.error "You do not have permission to post."
      ↔ cu.isSome = true ∧ canEditOf cu = false)
    ∧ (cu = none → addPost cu store newKey pd now = Except.ok store) := by
  cases cu with
  | none =>
    refine ⟨⟨fun h => by simp [addPost] at h, fun h => by simp at h⟩, fun _ => rfl⟩
  | some u =>
    refine ⟨⟨fun h => ⟨rfl, ?_⟩, fun h => ?_⟩, fun h => Option.noConfusion h⟩
    · by_contra hne
      simp only [addPost, if_neg hne] at h
      exact Except.noConfusion h
    · simp only [addPost, if_pos h.2]

/-- Witness for claim C2's theorem: a signed-in publisher whose
editable-flag is false is rejected with the permission error. -/
theorem c2_addPost_permission_witness :
    addPost (some pubRestricted) [] "k1" samplePostData
        "2024-01-01T00:00:00.000Z"
      = Except.error "You do not have permission to post." :=
  (c2_addPost_permission (some pubRestricted) [] "k1" samplePostData
    "2024-01-01T00:00:00.000Z").1.mpr ⟨rfl, rfl⟩

/-- Counterexample to claim C2 as stated: with no identity signed in,
can-edit is false and yet create-listing resolves without any error. -/
theorem c2_counterexample :
    canEditOf none = false
    ∧ addPost none [] "k0" samplePostData "2024-01-01T00:00:00.000Z"
        = Except.ok [] :=
  ⟨rfl, rfl⟩

/-- Claim C3 (confirmed): can-edit is false with no identity signed in,
true for every admin regardless of the editable-flag, and equals the
editable-flag (default true when unset) for every publisher. -/
theorem c3_canEdit_derivation :
    canEditOf none = false
    ∧ (∀ u : User, u.role = Role.admin → canEditOf (some u) = true)
    ∧ (∀ u : User, u.role = Role.publisher →
        canEditOf (some u) = u.canEdit.getD true) := by
  refine ⟨rfl, ?_, ?_⟩
  · intro u h
    simp [canEditOf, h]
  · intro u h
    exact canEditOf_nonadmin u (by rw [h]; decide)

/-- Witness for claim C3's theorem: an admin with the flag explicitly
false still has can-edit true; a publisher with the flag unset defaults
to true. -/
theorem c3_canEdit_derivation_witness :
    canEditOf (some adminFlagOff) = true
    ∧ canEditOf (some pubFlagUnset) = true :=
  ⟨c3_canEdit_derivation.2.1 adminFlagOff rfl,
   (c3_canEdit_derivation.2.2 pubFlagUnset rfl).trans rfl⟩

/-- Claim C4 (confirmed): the profile written by register carries role
admin when the email is the hardcoded address, the requested role for any
other email, and editable-flag true in every case. -/
theorem c4_register_role (name email pass : String) (requestedRole : Role) :
    (email = "moinulbd.sk@gmail.com" →
      (register name email pass requestedRole).role = Role.admin)
    ∧ (¬ email = "moinulbd.sk@gmail.com" →
      (register name email pass requestedRole).role = requestedRole)
    ∧ (register name email pass requestedRole).canEdit = some true := by
  refine ⟨?_, ?_, rfl⟩
  · intro h
    simp [register, h]
  · intro h
    simp [register, h]

/-- Witness for claim C4's theorem: the hardcoded email is forced to
admin despite a requested role of `user`; another email keeps the
requested publisher role. -/
theorem c4_register_role_witness :
    (register "A" "moinulbd.sk@gmail.com" "pw" Role.user).role = Role.admin
    ∧ (register "B" "someone@example.com" "pw" Role.publisher).role
        = Role.publisher :=
  ⟨(c4_register_role "A" "moinulbd.sk@gmail.com" "pw" Role.user).1 rfl,
   (c4_register_role "B" "someone@example.com" "pw" Role.publisher).2.1
     (by decide)⟩

/-- Claim C5 (confirmed): delete-listing is an unconditional removal — it
always resolves, never raises, and its result does not depend on the
current identity (in particular not on can-edit being false or no
identity being signed in). -/
theorem c5_deletePost_unconditional (cu : Option User) (store : Store PostRec)
    (id : String) :
    deletePost cu store id = Except.ok (removeKey store id)
    ∧ deletePost cu store id = deletePost none store id :=
  ⟨rfl, rfl⟩

/-- Claim C6 (confirmed): after every snapshot replace of the listings
collection, adjacent posts have non-increasing creation timestamps
(newest first), for any timestamp reading of the date strings. -/
theorem c6_postsSnapshot_sorted (getTime : String → Int)
    (val : Option (Store PostRec)) :
    (postsSnapshotHandler getTime val).Chain'
      (fun a b => getTime b.date ≤ getTime a.date) := by
  cases val with
  | none => simp [postsSnapshotHandler]
  | some data => exact chain'_sortByTimeDesc getTime _

/-- Claim C7 (confirmed): right after sign-out the current identity is
absent and is-admin, is-publisher and can-edit are all false. -/
theorem c7_logout_clears (cu : Option User) :
    logout cu = none ∧ isAdminOf (logout cu) = false
    ∧ isPublisherOf (logout cu) = false ∧ canEditOf (logout cu) = false :=
  ⟨rfl, rfl, rfl, rfl⟩

/-- Claim C8 (corrected): create-category writes the slug obtained by
lowercasing the name and collapsing each maximal run of whitespace to a
single hyphen, and returns the store-generated key; on "Tech News" the
slug is "tech-news". -/
theorem c8_addCategory_slug (store : Store CategoryRecord)
    (newKey name icon : String) :
    (addCategory store newKey name icon).2 = newKey
    ∧ (addCategory store newKey name icon).1
        = store ++ [(newKey, { name := name, icon := icon, slug := slugOf name })]
    ∧ slugOf "Tech News" = "tech-news" :=
  ⟨rfl, rfl, by decide⟩

/-- Counterexample to claim C8 as stated: on a name with two consecutive
spaces the written slug collapses the run into one hyphen, while
replacing each space with a hyphen would give two. -/
theorem c8_counterexample :
    (addCategory [] "k0" "a  b" "x").1
        = [("k0", { name := "a  b", icon := "x", slug := "a-b" })]
    ∧ claimSlug "a  b" = "a--b"
    ∧ slugOf "a  b" ≠ claimSlug "a  b" := by
  refine ⟨by decide, by decide, by decide⟩

/-- Claim C9 (confirmed): filtered-listings keeps exactly the posts whose
lowercased title or publisher name contains the lowercased query and
whose category equals the selected one unless that is "all"; on the
one-element set with the "WhatsApp Web" post and query "web" it returns
exactly that post. -/
theorem c9_filteredPosts_spec :
    (∀ (q c : String) (posts : List Post) (p : Post),
      p ∈ filteredPosts q c posts ↔
        p ∈ posts
        ∧ (strIncludes (jsToLower p.title) (jsToLower q) = true
            ∨ strIncludes (jsToLower p.publisherName) (jsToLower q) = true)
        ∧ (c = "all" ∨ p.categoryId = c))
    ∧ filteredPosts "web" "all" [whatsappPost] = [whatsappPost] := by
  constructor
  · intro q c posts p
    simp [filteredPosts, List.mem_filter]
  · decide

/-- Witness for claim C9's theorem: the example post is a member of the
filtered result. -/
theorem c9_filteredPosts_spec_witness :
    whatsappPost ∈ filteredPosts "web" "all" [whatsappPost] :=
  (c9_filteredPosts_spec.1 "web" "all" [whatsappPost] whatsappPost).mpr
    ⟨List.mem_singleton.mpr rfl, Or.inl (by decide), Or.inl rfl⟩

/-- Claim C10 (confirmed): with no identity signed in, both create-listing
and update-listing resolve without error and leave the posts collection
exactly as it was. -/
theorem c10_noUser_noWrite (store : Store PostRec) (newKey id : String)
    (pd : PostData) (patch : PostPatch) (now : String) :
    addPost none store newKey pd now = Except.ok store
    ∧ updatePost none store id patch = Except.ok store :=
  ⟨rfl, rfl⟩
